import Mathlib

/-!
Verification development for the "whatshappening" Cursor chat-history browser
(`src/server.ts` and the React frontend).  The server walks per-workspace
SQLite key-value stores, extracts prompt and composer (conversation) records
from JSON blobs, and serves date-grouped aggregations over HTTP; the frontend
renders markdown summaries of selected conversations.

The embedding below models the data flow of the source:
* database reads are modeled as an inductive outcome type (open failure,
  missing key, corrupt JSON, parsed value), since the code treats every
  failure as an empty result;
* JavaScript string operations (`toLowerCase`, `includes`, `split`,
  `localeCompare` on `en-CA` date strings) are modeled by char-list functions;
* `Array.prototype.sort` with a comparator is modeled by a stable insertion
  sort `sortLe`;
* a JavaScript `Map`/plain-object in insertion order is modeled by an
  association list with append-at-end insertion;
* local-time calendar computations (`toLocaleDateString('en-CA')`,
  `new Date('YYYY-MM-DDT00:00:00')`) are modeled with a fixed UTC offset
  `tzOffsetMs` (local time = UTC + offset) and Hinnant-style civil-date
  arithmetic;
* locale-dependent pretty printing (`toLocaleString`) is an environment
  parameter, since its output never influences control flow.
-/

/-! ## JavaScript string primitives -/

/-- ASCII lower-casing of one character, modeling `String.prototype.toLowerCase`
on the ASCII range (the only range exercised by the code's queries). -/
def lowerChar (c : Char) : Char :=
  if 65 ≤ c.toNat ∧ c.toNat ≤ 90 then Char.ofNat (c.toNat + 32) else c

/-- Model of JavaScript `s.toLowerCase()` (ASCII). -/
def toLowerStr (s : String) : String := String.mk (s.data.map lowerChar)

/-- Does `hay` start with `needle`? -/
def startsWithL : List Char → List Char → Bool
  | [], _ => true
  | _ :: _, [] => false
  | a :: as, b :: bs => a == b && startsWithL as bs

/-- Substring containment on char lists; models `String.prototype.includes`. -/
def hasSub (hay needle : List Char) : Bool :=
  match hay with
  | [] => needle.isEmpty
  | _ :: rest => startsWithL needle hay || hasSub rest needle

/-- Model of JavaScript `hay.includes(needle)`. -/
def strIncludes (hay needle : String) : Bool := hasSub hay.data needle.data

/-- Code-unit `≤` on char lists; models the ordering that
`localeCompare` induces on the `YYYY-MM-DD` date strings the code sorts
(for ASCII digit strings locale collation coincides with code-unit order). -/
def leChars : List Char → List Char → Bool
  | [], _ => true
  | _ :: _, [] => false
  | a :: as, b :: bs =>
    if a.toNat = b.toNat then leChars as bs else decide (a.toNat ≤ b.toNat)

/-- String `≤` in code-unit order (see `leChars`). -/
def dleStr (a b : String) : Bool := leChars a.data b.data

/-- Model of JavaScript `key.split(':')` on the underlying char list. -/
def splitColons : List Char → List (List Char)
  | [] => [[]]
  | c :: rest =>
    match splitColons rest with
    | [] => [[]]
    | h :: t => if c == ':' then [] :: h :: t else (c :: h) :: t

/-! ## Comparator-based sorting

`Array.prototype.sort(cmp)` produces an order in which the comparator is
non-positive on every (earlier, later) pair; `sortLe le` is a stable
insertion sort for the Boolean relation `le a b ↔ cmp a b ≤ 0`. -/

/-- Insert `x` into `l`, before the first element `y` with `le x y`. -/
def insertLe (le : α → α → Bool) (x : α) : List α → List α
  | [] => [x]
  | y :: ys => if le x y then x :: y :: ys else y :: insertLe le x ys

/-- Stable insertion sort by the Boolean relation `le`. -/
def sortLe (le : α → α → Bool) : List α → List α
  | [] => []
  | x :: xs => insertLe le x (sortLe le xs)

/-! ## Insertion-ordered association lists (JavaScript `Map` / plain object) -/

/-- Lookup by key; models `map.get(k)` / `obj[k]`. -/
def alookup {β : Type} (k : String) : List (String × β) → Option β
  | [] => none
  | p :: rest => if p.1 = k then some p.2 else alookup k rest

/-- Apply `f` to the value stored under `k` (no-op when `k` is absent);
models an in-place mutation of `map.get(k)`. -/
def aupdate {β : Type} (k : String) (f : β → β) : List (String × β) → List (String × β)
  | [] => []
  | p :: rest => if p.1 = k then (p.1, f p.2) :: aupdate k f rest else p :: aupdate k f rest

/-- Insert `(k, d)` at the end when `k` is absent; models
`if (!map.has(k)) map.set(k, d)`. -/
def ensure {β : Type} (k : String) (d : β) : List (String × β) → List (String × β)
  | [] => [(k, d)]
  | p :: rest => if p.1 = k then p :: rest else p :: ensure k d rest

/-- Append `v` to the list stored under `k`, creating the group at the end
when absent; models the `grouped.get(k).push(v)` pattern. -/
def apush {β : Type} (k : String) (v : β) : List (String × List β) → List (String × List β)
  | [] => [(k, [v])]
  | p :: rest => if p.1 = k then (p.1, p.2 ++ [v]) :: rest else p :: apush k v rest

/-- The keys of an association list, in order. -/
def akeys {β : Type} (m : List (String × β)) : List String := m.map Prod.fst

/-! ## Civil-date arithmetic (fixed-offset model of local time)

`toLocaleDateString('en-CA')` renders a timestamp as `YYYY-MM-DD` in the
server's local time zone, and `new Date('YYYY-MM-DDT00:00:00')` parses a
date at local midnight.  Local time is modeled as UTC plus a fixed offset
`tzOffsetMs` (local = UTC + offset; DST transitions are outside the scope of
the claims).  The conversions between epoch days and civil dates follow the
standard Hinnant algorithms with floor division. -/

/-- Days since 1970-01-01 of the civil date `y-m-d` (proleptic Gregorian). -/
def daysFromCivil (y m d : Int) : Int :=
  let yy := if m ≤ 2 then y - 1 else y
  let era := yy.ediv 400
  let yoe := yy - era * 400
  let mp := (m + 9).emod 12
  let doy := (153 * mp + 2).ediv 5 + d - 1
  let doe := yoe * 365 + yoe.ediv 4 - yoe.ediv 100 + doy
  era * 146097 + doe - 719468

/-- Civil date `(y, m, d)` of a count of days since 1970-01-01. -/
def civilFromDays (z0 : Int) : Int × Int × Int :=
  let z := z0 + 719468
  let era := z.ediv 146097
  let doe := z - era * 146097
  let yoe := (doe - doe.ediv 1460 + doe.ediv 36524 - doe.ediv 146096).ediv 365
  let y := yoe + era * 400
  let doy := doe - (365 * yoe + yoe.ediv 4 - yoe.ediv 100)
  let mp := (5 * doy + 2).ediv 153
  let d := doy - (153 * mp + 2).ediv 5 + 1
  let m := if mp < 10 then mp + 3 else mp - 9
  (if m ≤ 2 then y + 1 else y, m, d)

/-- Zero-padded two-digit decimal rendering. -/
def pad2 (n : Nat) : String := if n < 10 then "0" ++ toString n else toString n

/-- Zero-padded three-digit decimal rendering. -/
def pad3 (n : Nat) : String :=
  if n < 10 then "00" ++ toString n
  else if n < 100 then "0" ++ toString n
  else toString n

/-- Zero-padded four-digit decimal rendering. -/
def pad4 (n : Nat) : String :=
  if n < 10 then "000" ++ toString n
  else if n < 100 then "00" ++ toString n
  else if n < 1000 then "0" ++ toString n
  else toString n

/-- Model of `new Date(ms).toISOString()` (always UTC). -/
def msToIso (ms : Int) : String :=
  let days := ms.ediv 86400000
  let rem := (ms.emod 86400000).toNat
  let c := civilFromDays days
  pad4 c.1.toNat ++ "-" ++ pad2 c.2.1.toNat ++ "-" ++ pad2 c.2.2.toNat ++ "T" ++
    pad2 (rem / 3600000) ++ ":" ++ pad2 (rem % 3600000 / 60000) ++ ":" ++
    pad2 (rem % 60000 / 1000) ++ "." ++ pad3 (rem % 1000) ++ "Z"

/-- Model of `new Date(ms).toLocaleDateString('en-CA')`: the `YYYY-MM-DD`
string of `ms` in the local zone with fixed UTC offset `tz` (milliseconds). -/
def localDateString (tz ms : Int) : String :=
  let c := civilFromDays ((ms + tz).ediv 86400000)
  pad4 c.1.toNat ++ "-" ++ pad2 c.2.1.toNat ++ "-" ++ pad2 c.2.2.toNat

/-! ## JSON values

The stored blobs are untyped JSON; the fields the code reads off them can be
of any JSON type.  Array and object payloads are elided (only their
truthiness/typeof ever matters for those fields).  `undef` models the
JavaScript `undefined` produced by a missing property. -/

inductive JsonVal where
  | undef : JsonVal
  | jnull : JsonVal
  | jbool : Bool → JsonVal
  | jnum : Int → JsonVal
  | jstr : String → JsonVal
  | jarr : JsonVal
  | jobj : JsonVal
  deriving DecidableEq, Repr

/-- JavaScript truthiness of a JSON value (NaN is not representable here;
no stored blob field is compared as NaN by the code). -/
def truthy : JsonVal → Bool
  | .undef => false
  | .jnull => false
  | .jbool b => b
  | .jnum n => decide (n ≠ 0)
  | .jstr s => decide (s ≠ "")
  | .jarr => true
  | .jobj => true

/-- Model of `typeof v === 'number' && v > 0`. -/
def isPosNum : JsonVal → Bool
  | .jnum n => decide (0 < n)
  | _ => false

/-- The numeric value of a JSON value known to be a number. -/
def asNum : JsonVal → Int
  | .jnum n => n
  | _ => 0

/-! ## Server data model (`src/server.ts`) -/

/-- A prompt record from the `aiService.prompts` array.  The code performs no
validation of the array's elements, so every field may be absent; the fields
are modeled at the shapes the code's `Prompt` interface declares and its
consumers read (`text` via optional chaining). -/
structure Prompt where
  text : Option String
  commandType : Option Int
  createdAt : Option String
  timestamp : Option Int
  deriving DecidableEq, Repr

/-- A normalized composer (conversation) record as produced by
`extractComposers`.  `lastUpdatedAt` is genuinely numeric (the filter
guarantees it); the other fields are copied from the raw JSON and may be of
any JSON type. -/
structure Composer where
  composerId : JsonVal
  name : JsonVal
  createdAt : JsonVal
  lastUpdatedAt : Int
  mode : JsonVal
  deriving DecidableEq, Repr

/-- A raw element of the `composer.composerData.allComposers` array, as seen
through the property reads the code performs.  A missing property is
`JsonVal.undef`. -/
structure RawComposer where
  composerId : JsonVal
  name : JsonVal
  createdAt : JsonVal
  lastUpdatedAt : JsonVal
  unifiedMode : JsonVal
  deriving DecidableEq, Repr

/-- An element of the `allComposers` array.  JSON can store `null` in an
array; a property read on `null` throws a `TypeError` in JavaScript, which
the surrounding `try`/`catch` of `extractComposers` turns into an empty
result.  Every other JSON value supports property reads (primitives yield
`undefined`), so they are represented by a `RawComposer` of their property
values. -/
inductive RawElem where
  | jnullElem : RawElem
  | jrec : RawComposer → RawElem
  deriving DecidableEq, Repr

/-- Outcome of reading and JSON-decoding the `aiService.prompts` value of a
workspace database: the database could not be opened (locked/missing), the
key is absent, the value is corrupt JSON, the value parses but is not an
array, or it is an array of prompt records. -/
inductive DbReadP where
  | openFail : DbReadP
  | missingKey : DbReadP
  | corrupt : DbReadP
  | parsedNonArray : DbReadP
  | parsedArray : List Prompt → DbReadP
  deriving DecidableEq, Repr

/-- Outcome of reading and JSON-decoding the `composer.composerData` value:
as `DbReadP`, with `parsedNoArray` covering every parsed value whose
`allComposers` property is not a (truthy) array. -/
inductive DbReadC where
  | openFail : DbReadC
  | missingKey : DbReadC
  | corrupt : DbReadC
  | parsedNoArray : DbReadC
  | parsedArray : List RawElem → DbReadC
  deriving DecidableEq, Repr

/-- Environment of the server process: the fixed UTC offset of the local
time zone, and the locale renderer backing `toLocaleString()` (its output is
only ever embedded into display strings, never branched on). -/
structure SrvEnv where
  tzOffsetMs : Int
  localeString : JsonVal → String

/-- Model of `extractPrompts` (`server.ts`): returns the decoded array when
the value is an array, and the empty sequence on every failure. -/
def extractPrompts : DbReadP → List Prompt
  | .parsedArray l => l
  | _ => []

/-- The filter callback of `extractComposers`:
`c.composerId && typeof c.lastUpdatedAt === 'number' && c.lastUpdatedAt > 0`.
A property read on a `null` array element throws (modeled as `Except.error`). -/
def composerFilterCb : RawElem → Except Unit Bool
  | .jnullElem => .error ()
  | .jrec c => .ok (truthy c.composerId && isPosNum c.lastUpdatedAt)

/-- Sequential `Array.prototype.filter` with a callback that can throw. -/
def filterE (p : α → Except Unit Bool) : List α → Except Unit (List α)
  | [] => .ok []
  | x :: xs =>
    match p x with
    | .error e => .error e
    | .ok b =>
      match filterE p xs with
      | .error e => .error e
      | .ok rest => .ok (if b then x :: rest else rest)

/-- The map callback of `extractComposers`, applied to elements that passed
the filter (hence non-null, so its property reads cannot throw). -/
def composerMapCb (env : SrvEnv) : RawElem → Composer
  | .jnullElem => ⟨.undef, .undef, .undef, 0, .undef⟩
  | .jrec c =>
    { composerId := c.composerId
      name :=
        if truthy c.name then c.name
        else .jstr ("Chat " ++
          env.localeString (if truthy c.createdAt then c.createdAt else c.lastUpdatedAt))
      createdAt := if truthy c.createdAt then c.createdAt else c.lastUpdatedAt
      lastUpdatedAt := asNum c.lastUpdatedAt
      mode := if truthy c.unifiedMode then c.unifiedMode else .jstr "chat" }

/-- Model of `extractComposers` (`server.ts`): on a parsed value with a
truthy `allComposers` array, `allComposers.filter(...).map(...)` inside the
`try`; any thrown error and every failed read yield the empty sequence. -/
def extractComposers (env : SrvEnv) : DbReadC → List Composer
  | .parsedArray elems =>
    match filterE composerFilterCb elems with
    | .ok kept => kept.map (composerMapCb env)
    | .error _ => []
  | _ => []

/-- A workspace record as assembled by `listWorkspaces`. -/
structure Workspace where
  id : String
  path : String
  folder : Option String
  modified : String
  modifiedTimestamp : Int
  promptCount : Nat
  prompts : List Prompt
  composers : List Composer
  deriving DecidableEq, Repr

/-- One subdirectory of the workspace-storage root, as the enumerator
observes it: its directory name, whether `state.vscdb` exists, the
modification time of that file, the resolved folder (the result of
`getWorkspaceFolder`, whose internals no claim touches), and the outcomes of
the two database reads. -/
structure FsEntry where
  name : String
  hasDb : Bool
  mtimeMs : Int
  folder : Option String
  promptsRead : DbReadP
  composersRead : DbReadC
  deriving Repr

/-- Model of `listWorkspaces(daysBack)` (`server.ts`): for each directory in
the storage root, skip it when `state.vscdb` is missing or older than
`now - daysBack` days, read folder/prompts/composers, keep the workspace only
when it has at least one prompt or composer, and finally sort by modification
timestamp descending (comparator `(a, b) => b.modifiedTimestamp - a.modifiedTimestamp`). -/
def listWorkspaces (env : SrvEnv) (daysBack : Int) (now : Int) (fs : List FsEntry) :
    List Workspace :=
  let cutoff := now - daysBack * 86400000
  let ws := fs.filterMap (fun e =>
    if e.hasDb = false then none
    else if e.mtimeMs < cutoff then none
    else
      let prompts := extractPrompts e.promptsRead
      let composers := extractComposers env e.composersRead
      if 0 < prompts.length ∨ 0 < composers.length then
        some
          { id := e.name
            path := e.name ++ "/state.vscdb"
            folder := e.folder
            modified := msToIso e.mtimeMs
            modifiedTimestamp := e.mtimeMs
            promptCount := prompts.length
            prompts := prompts
            composers := composers }
      else none)
  sortLe (fun a b => decide (b.modifiedTimestamp ≤ a.modifiedTimestamp)) ws

/-! ## GET /api/search -/

/-- One element of the search response:
`{ workspace: ws.id, folder: ws.folder, prompt }`. -/
structure SearchResult where
  workspace : String
  folder : Option String
  prompt : Prompt
  deriving DecidableEq, Repr

/-- Model of the `GET /api/search` handler (`server.ts`): lower-case the
query, return `[]` when it is empty, otherwise collect every prompt (over
`listWorkspaces(30)`) whose text contains the query case-insensitively
(`prompt.text?.toLowerCase().includes(query)`), and cap the result at 100
with `slice(0, 100)`. -/
def searchEndpoint (env : SrvEnv) (now : Int) (fs : List FsEntry) (q : String) :
    List SearchResult :=
  let query := toLowerStr q
  if query = "" then []
  else
    let results := (listWorkspaces env 30 now fs).flatMap (fun ws =>
      ws.prompts.filterMap (fun p =>
        match p.text with
        | some t =>
          if strIncludes (toLowerStr t) query then
            some { workspace := ws.id, folder := ws.folder, prompt := p }
          else none
        | none => none))
    results.take 100

/-! ## GET /api/workspaces/:id -/

/-- A calendar date supplied as the `date=YYYY-MM-DD` query parameter. -/
structure CivilDate where
  year : Int
  month : Int
  day : Int
  deriving DecidableEq, Repr

/-- Epoch milliseconds of `date + 'T00:00:00'` parsed in the local zone:
the code's `startOfDay`. -/
def dayStart (env : SrvEnv) (cd : CivilDate) : Int :=
  daysFromCivil cd.year cd.month cd.day * 86400000 - env.tzOffsetMs

/-- Epoch milliseconds of `date + 'T23:59:59.999'` parsed in the local zone:
the code's `endOfDay`. -/
def dayEnd (env : SrvEnv) (cd : CivilDate) : Int :=
  daysFromCivil cd.year cd.month cd.day * 86400000 + 86399999 - env.tzOffsetMs

/-- Model of `groupComposersByDate` (`server.ts`): group composers by the
local calendar date of their `lastUpdatedAt`, preserving insertion order of
the date keys. -/
def groupComposersByDate (env : SrvEnv) (composers : List Composer) :
    List (String × List Composer) :=
  composers.foldl
    (fun m c => apush (localDateString env.tzOffsetMs c.lastUpdatedAt) c m) []

/-- The JSON body of a successful workspace-detail response: the workspace's
fields spread out, with `composers` replaced by the date-filtered list and
`composersByDate` added. -/
structure DetailResponse where
  id : String
  path : String
  folder : Option String
  modified : String
  modifiedTimestamp : Int
  promptCount : Nat
  prompts : List Prompt
  composers : List Composer
  composersByDate : List (String × List Composer)
  deriving DecidableEq, Repr

/-- Outcome of the workspace-detail handler: an HTTP status together with
either an error payload or a `DetailResponse`. -/
inductive DetailResult where
  | notFound : Nat → String → DetailResult
  | found : Nat → DetailResponse → DetailResult
  deriving DecidableEq, Repr

/-- Model of the `GET /api/workspaces/:id` handler (`server.ts`): look the id
up in `listWorkspaces(365)`; when absent answer status 404 with
`{ error: 'Workspace not found' }`; when present answer the workspace with
its composers filtered to `[startOfDay, endOfDay]` when a date was supplied,
and `composersByDate` computed from the unfiltered composers. -/
def getWorkspaceDetail (env : SrvEnv) (now : Int) (fs : List FsEntry) (id : String)
    (dateFilter : Option CivilDate) : DetailResult :=
  match (listWorkspaces env 365 now fs).find? (fun ws => ws.id == id) with
  | none => .notFound 404 "Workspace not found"
  | some ws =>
    let filteredComposers :=
      match dateFilter with
      | none => ws.composers
      | some cd =>
        ws.composers.filter (fun c =>
          decide (dayStart env cd ≤ c.lastUpdatedAt) &&
            decide (c.lastUpdatedAt ≤ dayEnd env cd))
    .found 200
      { id := ws.id
        path := ws.path
        folder := ws.folder
        modified := ws.modified
        modifiedTimestamp := ws.modifiedTimestamp
        promptCount := ws.promptCount
        prompts := ws.prompts
        composers := filteredComposers
        composersByDate := groupComposersByDate env ws.composers }

/-- The composers list of a detail result (empty for a 404). -/
def detailComposers : DetailResult → List Composer
  | .found _ r => r.composers
  | .notFound _ _ => []

/-! ## GET /api/dates -/

/-- The per-date accumulator of the `/api/dates` handler:
`{ promptCount, workspaces: Set<string>, composerCount }` (the set is an
insertion-ordered list with membership-checked insertion). -/
structure DateEntry where
  promptCount : Nat
  workspaces : List String
  composerCount : Nat
  deriving DecidableEq, Repr

/-- Model of `Set.prototype.add`. -/
def pushUnique (l : List String) (x : String) : List String :=
  if x ∈ l then l else l ++ [x]

/-- One composer's contribution to the date map: ensure its local
`lastUpdatedAt` date has an entry, add the workspace id to that entry's set,
and increment its composer count. -/
def addComposer (env : SrvEnv) (wsId : String) (m : List (String × DateEntry))
    (c : Composer) : List (String × DateEntry) :=
  aupdate (localDateString env.tzOffsetMs c.lastUpdatedAt)
    (fun e => { e with workspaces := pushUnique e.workspaces wsId,
                       composerCount := e.composerCount + 1 })
    (ensure (localDateString env.tzOffsetMs c.lastUpdatedAt) ⟨0, [], 0⟩ m)

/-- One workspace's contribution to the date map: ensure the workspace's
modification date has an entry, fold its composers through `addComposer`,
then add the workspace's prompt count and id to the modification-date
entry. -/
def processWs (env : SrvEnv) (m : List (String × DateEntry)) (ws : Workspace) :
    List (String × DateEntry) :=
  aupdate (localDateString env.tzOffsetMs ws.modifiedTimestamp)
    (fun e => { e with promptCount := e.promptCount + ws.promptCount,
                       workspaces := pushUnique e.workspaces ws.id })
    (ws.composers.foldl (addComposer env ws.id)
      (ensure (localDateString env.tzOffsetMs ws.modifiedTimestamp) ⟨0, [], 0⟩ m))

/-- One element of the `/api/dates` response. -/
structure DateGroup where
  date : String
  promptCount : Nat
  composerCount : Nat
  workspaceIds : List String
  deriving DecidableEq, Repr

/-- Model of the `GET /api/dates` handler (`server.ts`): build the date map
over `listWorkspaces(30)`, keep only dates with a positive composer count,
and sort descending by date string (`(a, b) => b.date.localeCompare(a.date)`). -/
def datesEndpoint (env : SrvEnv) (now : Int) (fs : List FsEntry) : List DateGroup :=
  let wss := listWorkspaces env 30 now fs
  let m := wss.foldl (processWs env) []
  sortLe (fun a b => dleStr b.date a.date)
    ((m.filter (fun p => 0 < p.2.composerCount)).map (fun p =>
      { date := p.1
        promptCount := p.2.promptCount
        composerCount := p.2.composerCount
        workspaceIds := p.2.workspaces }))

/-! ## GET /api/composers/:composerId/bubbles -/

/-- A bubble (message) record as returned by the handler.  The `createdAt`
field is modeled as the parsed time value of the stored timestamp; `none`
covers an absent or falsy value (the only distinction the comparator makes). -/
structure Bubble where
  bubbleId : Option String
  type : Int
  text : String
  createdAt : Option Int
  deriving DecidableEq, Repr

/-- The JSON-decoded value of one `cursorDiskKV` row, as read by the handler
(`data.type`, `data.text`, `data.createdAt`). -/
structure RawBubble where
  type : Option Int
  text : Option String
  createdAt : Option Int
  deriving DecidableEq, Repr

/-- One row returned by the `LIKE 'bubbleId:<composerId>:%'` query: the full
key and the outcome of `JSON.parse` on its value (`none` = parse failure,
skipped per-row). -/
structure BubbleRow where
  key : String
  value : Option RawBubble
  deriving Repr

/-- Model of `key.split(':')[2]`. -/
def keyThirdSegment (key : String) : Option String :=
  ((splitColons key.data).get? 2).map String.mk

/-- The retained bubbles of a row list: rows that parsed and have truthy
`text`, in row order. -/
def bubblesOf (rows : List BubbleRow) : List Bubble :=
  rows.filterMap (fun r =>
    match r.value with
    | none => none
    | some rb =>
      match rb.text with
      | some t =>
        if t = "" then none
        else some { bubbleId := keyThirdSegment r.key
                    type := rb.type.getD 0
                    text := t
                    createdAt := rb.createdAt }
      | none => none)

/-- The bubble comparator:
`(a, b) => a.createdAt && b.createdAt ? Date(a) - Date(b) : 0`. -/
def bubbleCmp (a b : Bubble) : Int :=
  match a.createdAt, b.createdAt with
  | some x, some y => x - y
  | _, _ => 0

/-- Model of the `GET /api/composers/:composerId/bubbles` handler
(`server.ts`): `[]` when the global database file does not exist or any read
throws; otherwise the retained bubbles sorted by the comparator. -/
def bubblesEndpoint (dbExists readFail : Bool) (rows : List BubbleRow) : List Bubble :=
  if dbExists = false then []
  else if readFail then []
  else sortLe (fun a b => decide (bubbleCmp a b ≤ 0)) (bubblesOf rows)

/-! ## Frontend summary generation (`SelectionPanel.tsx`, `lib/utils.ts`)

The frontend receives its records over JSON at the types declared in
`types.ts`; the summary builder is modeled at those types.  Strings that
depend on the wall clock or the locale (`new Date().toLocaleString()`,
`formatDateTime`, `toLocaleDateString('en-CA')` of a bubble timestamp, the
today/yesterday date strings) are environment parameters. -/

/-- A bubble as the frontend sees it (`types.ts`). -/
structure FBubble where
  bubbleId : String
  type : Int
  text : String
  createdAt : Option String
  deriving DecidableEq, Repr

/-- A composer as the frontend sees it (`types.ts`). -/
structure FComposer where
  composerId : String
  name : String
  createdAt : Int
  lastUpdatedAt : Int
  mode : String
  deriving DecidableEq, Repr

/-- One selection entry: the composer plus its workspace display name. -/
structure FSelected where
  composer : FComposer
  workspaceName : String
  deriving DecidableEq, Repr

/-- A selected conversation with its fetched bubbles
(`ConversationWithBubbles`). -/
structure FConv where
  composer : FSelected
  bubbles : List FBubble
  deriving DecidableEq, Repr

/-- The date-filter toggle of the summary modal. -/
inductive DateFilter where
  | all : DateFilter
  | today : DateFilter
  | yesterday : DateFilter
  | custom : DateFilter
  deriving DecidableEq, Repr

/-- Frontend environment: wall-clock and locale-dependent strings. -/
structure FrontEnv where
  nowLabel : String
  fmtDateTime : Int → String
  todayStr : String
  yesterdayStr : String
  dateOfStr : String → String

/-- Model of `getModeInfo(mode).label` (`lib/utils.ts` with `MODE_LABELS`):
`agent`, `chat` and `edit` have labels, anything else falls back to `Chat`. -/
def modeLabelOf (mode : String) : String :=
  if mode = "agent" then "Agent"
  else if mode = "chat" then "Chat"
  else if mode = "edit" then "Edit"
  else "Chat"

/-- Model of `filterBubblesByDate` (`SelectionPanel.tsx`): `all` keeps
everything; `today`/`yesterday`/`custom`-with-a-date keep the bubbles whose
truthy `createdAt` renders to the target `en-CA` date; `custom` without a
date keeps everything. -/
def filterBubblesByDate (env : FrontEnv) (bubbles : List FBubble)
    (filter : DateFilter) (customDate : Option String) : List FBubble :=
  if filter = DateFilter.all then bubbles
  else
    let target : Option String :=
      if filter = DateFilter.today then some env.todayStr
      else if filter = DateFilter.yesterday then some env.yesterdayStr
      else
        match customDate with
        | some cd => if cd = "" then none else some cd
        | none => none
    match target with
    | none => bubbles
    | some t =>
      bubbles.filter (fun b =>
        match b.createdAt with
        | some s => decide (s ≠ "") && (env.dateOfStr s == t)
        | none => false)

/-- The pieces appended for one conversation inside the workspace group loop
of `generateFilteredSummary`: name heading, mode/last-updated line, either
the role/text pieces of each bubble or the no-messages note, and the
separator. -/
def convPieces (env : FrontEnv) (item : FConv) : List String :=
  ("### " ++ item.composer.composer.name ++ "\n")
    :: ("**Mode:** " ++ modeLabelOf item.composer.composer.mode ++
        " | **Last Updated:** " ++ env.fmtDateTime item.composer.composer.lastUpdatedAt ++
        "\n\n")
    :: ((if 0 < item.bubbles.length then
          item.bubbles.flatMap (fun b =>
            [(if b.type = 1 then "👤 **User:**" else "🤖 **AI:**") ++ "\n\n",
             b.text ++ "\n\n"])
        else ["*No messages found for this filter*\n\n"])
        ++ ["---\n\n"])

/-- The header pieces of `generateFilteredSummary` (title, generation time,
filter label, total count, separator). -/
def headerPieces (env : FrontEnv) (filter : DateFilter) (customDate : Option String)
    (total : Nat) : List String :=
  let filterLabel :=
    if filter = DateFilter.all then "All Dates"
    else if filter = DateFilter.today then "Today Only"
    else if filter = DateFilter.yesterday then "Yesterday Only"
    else
      match customDate with
      | some cd => if cd = "" then "Selected Date" else cd
      | none => "Selected Date"
  ["# Chat History Summary\n\n",
   "> Generated on " ++ env.nowLabel ++ "\n",
   "> Filter: **" ++ filterLabel ++ "**\n\n",
   "**Total Conversations:** " ++ toString total ++ "\n\n",
   "---\n\n"]

/-- The conversations kept by `generateFilteredSummary`: bubbles filtered by
date, conversations dropped when they have no bubbles left unless the filter
is `all`. -/
def filteredConvs (env : FrontEnv) (convs : List FConv) (filter : DateFilter)
    (customDate : Option String) : List FConv :=
  (convs.map (fun c =>
    { c with bubbles := filterBubblesByDate env c.bubbles filter customDate })).filter
    (fun c => decide (0 < c.bubbles.length) || decide (filter = DateFilter.all))

/-- Grouping of the kept conversations by workspace display name, in
insertion order (`grouped` in `generateFilteredSummary`). -/
def groupConvs (convs : List FConv) : List (String × List FConv) :=
  convs.foldl (fun m conv => apush conv.composer.workspaceName conv m) []

/-- The full piece list of `generateFilteredSummary`: header, then per
workspace group a heading followed by each conversation's pieces. -/
def summaryPieces (env : FrontEnv) (convs : List FConv) (filter : DateFilter)
    (customDate : Option String) : List String :=
  let kept := filteredConvs env convs filter customDate
  headerPieces env filter customDate kept.length ++
    (groupConvs kept).flatMap (fun g =>
      ("## 📁 " ++ g.1 ++ "\n\n") :: g.2.flatMap (convPieces env))

/-- Model of `generateFilteredSummary` (`SelectionPanel.tsx`): the
concatenation of the pieces. -/
def generateFilteredSummary (env : FrontEnv) (convs : List FConv)
    (filter : DateFilter) (customDate : Option String) : String :=
  String.join (summaryPieces env convs filter customDate)

/-! ## Specification-side predicates and tallies -/

/-- The retention condition of the composer invariant, written from the
spec's words: a truthy `composerId` and a numeric positive `lastUpdatedAt`
(reading the properties totally, a missing property being `undefined`). -/
def validRaw : RawElem → Bool
  | .jnullElem => false
  | .jrec c => truthy c.composerId && isPosNum c.lastUpdatedAt

/-- The prompt tally of one calendar date: the summed prompt counts of the
workspaces whose own modification date renders to `d`. -/
def pTally (env : SrvEnv) (d : String) (wss : List Workspace) : Nat :=
  ((wss.filter (fun ws =>
    decide (localDateString env.tzOffsetMs ws.modifiedTimestamp = d))).map
    (fun ws => ws.promptCount)).sum

/-- The composer tally of one calendar date: the number of composers across
all workspaces whose own `lastUpdatedAt` date renders to `d`. -/
def cTally (env : SrvEnv) (d : String) (wss : List Workspace) : Nat :=
  (wss.flatMap (fun ws => ws.composers)).countP
    (fun c => decide (localDateString env.tzOffsetMs c.lastUpdatedAt = d))

/-- The prompt count stored under key `d` of the date map (0 when absent). -/
def pcnt (m : List (String × DateEntry)) (d : String) : Nat :=
  match alookup d m with
  | some e => e.promptCount
  | none => 0

/-- The composer count stored under key `d` of the date map (0 when absent). -/
def ccnt (m : List (String × DateEntry)) (d : String) : Nat :=
  match alookup d m with
  | some e => e.composerCount
  | none => 0

/-! ## Concrete example data for witnesses and counterexamples -/

/-- A concrete environment: UTC, trivial locale renderer. -/
def exEnv0 : SrvEnv := ⟨0, fun _ => ""⟩

/-- A prompt whose text contains a space. -/
def exPrompt1 : Prompt := ⟨some "a b", none, none, none⟩

/-- A storage root with one workspace holding one prompt. -/
def exFs1 : List FsEntry :=
  [⟨"ws1", true, 0, none, .parsedArray [exPrompt1], .missingKey⟩]

/-- The workspace record the enumerator derives from `exFs1`. -/
def exW1 : Workspace :=
  { id := "ws1", path := "ws1/state.vscdb", folder := none, modified := msToIso 0,
    modifiedTimestamp := 0, promptCount := 1, prompts := [exPrompt1], composers := [] }

/-- Raw composer last updated at `2024-01-01T10:00:00Z` (epoch 1704103200000). -/
def c2Raw1 : RawComposer :=
  ⟨.jstr "c1", .jstr "First", .jnum 1704103200000, .jnum 1704103200000, .undef⟩

/-- Raw composer last updated at `2024-01-02T10:00:00Z` (epoch 1704189600000). -/
def c2Raw2 : RawComposer :=
  ⟨.jstr "c2", .jstr "Second", .jnum 1704189600000, .jnum 1704189600000, .undef⟩

/-- The wall clock of the example: `2024-01-02T10:00:00Z`. -/
def c2Now : Int := 1704189600000

/-- A storage root with one workspace holding the two example composers. -/
def c2Fs : List FsEntry :=
  [⟨"wsA", true, 1704189600000, none, .missingKey,
    .parsedArray [.jrec c2Raw1, .jrec c2Raw2]⟩]

/-- The normalized first example composer. -/
def c2FirstComposer : Composer :=
  ⟨.jstr "c1", .jstr "First", .jnum 1704103200000, 1704103200000, .jstr "chat"⟩

/-- The normalized second example composer. -/
def c2SecondComposer : Composer :=
  ⟨.jstr "c2", .jstr "Second", .jnum 1704189600000, 1704189600000, .jstr "chat"⟩

/-- The workspace record the enumerator derives from `c2Fs`. -/
def c2Workspace : Workspace :=
  { id := "wsA", path := "wsA/state.vscdb", folder := none,
    modified := msToIso 1704189600000, modifiedTimestamp := 1704189600000,
    promptCount := 0, prompts := [],
    composers := [c2FirstComposer, c2SecondComposer] }

/-- The detail response for `c2Fs` with `date=2024-01-01` at UTC. -/
def c10R1 : DetailResponse :=
  { id := "wsA", path := "wsA/state.vscdb", folder := none,
    modified := msToIso 1704189600000, modifiedTimestamp := 1704189600000,
    promptCount := 0, prompts := [], composers := [c2FirstComposer],
    composersByDate := groupComposersByDate exEnv0 [c2FirstComposer, c2SecondComposer] }

/-- The detail response for `c2Fs` without a date filter. -/
def c10R2 : DetailResponse :=
  { c10R1 with composers := [c2FirstComposer, c2SecondComposer] }

/-- A raw composer record satisfying the retention invariant. -/
def c4Good : RawComposer := ⟨.jstr "abc", .undef, .undef, .jnum 5, .undef⟩

/-- Two timestamped bubble rows. -/
def c6Rows : List BubbleRow :=
  [⟨"bubbleId:c:1", some ⟨some 1, some "hi", some 5⟩⟩,
   ⟨"bubbleId:c:2", some ⟨some 2, some "yo", some 3⟩⟩]

/-- The first entry of the dates listing for `c2Fs` at `c2Now` (UTC). -/
def c3Group : DateGroup := ⟨"2024-01-02", 0, 1, ["wsA"]⟩

/-- A trivial frontend environment. -/
def exFrontEnv : FrontEnv := ⟨"", fun _ => "", "", "", fun _ => ""⟩

/-- A selected conversation with one user message. -/
def exConv : FConv := ⟨⟨⟨"id1", "A", 0, 0, "chat"⟩, "WS"⟩, [⟨"b1", 1, "hello", none⟩]⟩

/-! ## Supporting lemmas and theorems -/

theorem leChars_total : ∀ a b : List Char, leChars a b = true ∨ leChars b a = true := by
  intro a
  induction a with
  | nil => intro b; left; rfl
  | cons x xs ih =>
    intro b
    cases b with
    | nil => right; rfl
    | cons y ys =>
      simp only [leChars]
      by_cases h : x.toNat = y.toNat
      · rw [if_pos h, if_pos h.symm]
        exact ih ys
      · have h' : ¬ y.toNat = x.toNat := fun hh => h hh.symm
        simp only [h, h', if_false, decide_eq_true_eq]
        omega

theorem leChars_trans :
    ∀ a b c : List Char, leChars a b = true → leChars b c = true → leChars a c = true := by
  intro a
  induction a with
  | nil => intro b c _ _; rfl
  | cons x xs ih =>
    intro b c hab hbc
    cases b with
    | nil => simp [leChars] at hab
    | cons y ys =>
      cases c with
      | nil => simp [leChars] at hbc
      | cons z zs =>
        simp only [leChars] at hab hbc ⊢
        by_cases hxy : x.toNat = y.toNat <;> by_cases hyz : y.toNat = z.toNat
        · simp only [hxy, hyz, eq_self_iff_true, if_true] at hab hbc ⊢
          exact ih ys zs hab hbc
        · simp only [if_pos hxy] at hab
          simp only [if_neg hyz, decide_eq_true_eq] at hbc
          have hxz : ¬ x.toNat = z.toNat := by omega
          simp only [if_neg hxz, decide_eq_true_eq]
          omega
        · simp only [if_neg hxy, decide_eq_true_eq] at hab
          simp only [if_pos hyz] at hbc
          have hxz : ¬ x.toNat = z.toNat := by omega
          simp only [if_neg hxz, decide_eq_true_eq]
          omega
        · simp only [if_neg hxy, decide_eq_true_eq] at hab
          simp only [if_neg hyz, decide_eq_true_eq] at hbc
          by_cases hxz : x.toNat = z.toNat
          · omega
          · simp only [if_neg hxz, decide_eq_true_eq]
            omega

theorem dleStr_total (a b : String) : dleStr a b = true ∨ dleStr b a = true :=
  leChars_total a.data b.data

theorem dleStr_trans (a b c : String) :
    dleStr a b = true → dleStr b c = true → dleStr a c = true :=
  leChars_trans a.data b.data c.data

theorem mem_insertLe (le : α → α → Bool) (x : α) (l : List α) (a : α) :
    a ∈ insertLe le x l ↔ a = x ∨ a ∈ l := by
  induction l with
  | nil => simp [insertLe]
  | cons y ys ih =>
    simp only [insertLe]
    by_cases h : le x y = true
    · rw [if_pos h]
      simp [List.mem_cons]
    · rw [if_neg h]
      simp only [List.mem_cons, ih]
      tauto

theorem mem_sortLe (le : α → α → Bool) (l : List α) (a : α) :
    a ∈ sortLe le l ↔ a ∈ l := by
  induction l with
  | nil => simp [sortLe]
  | cons x xs ih =>
    simp [sortLe, mem_insertLe, ih]

theorem pairwise_insertLe (le : α → α → Bool) (x : α) :
    ∀ l : List α, l.Pairwise (fun a b => le a b = true) →
      (∀ y ∈ l, le x y = true ∨ le y x = true) →
      (∀ y ∈ l, ∀ z ∈ l, le x y = true → le y z = true → le x z = true) →
      (insertLe le x l).Pairwise (fun a b => le a b = true) := by
  intro l
  induction l with
  | nil => intro _ _ _; simp [insertLe]
  | cons y ys ih =>
    intro hp htot htrans
    have hyys := List.pairwise_cons.1 hp
    simp only [insertLe]
    by_cases h : le x y
    · rw [if_pos h]
      refine List.pairwise_cons.2 ⟨?_, hp⟩
      intro b hb
      rcases List.mem_cons.1 hb with rfl | hb'
      · exact h
      · exact htrans y (by simp) b (by simp [hb']) h (hyys.1 b hb')
    · rw [if_neg h]
      have hyx : le y x = true := by
        rcases htot y (by simp) with h1 | h1
        · exact absurd h1 h
        · exact h1
      refine List.pairwise_cons.2 ⟨?_, ?_⟩
      · intro b hb
        rcases (mem_insertLe le x ys b).1 hb with rfl | hb'
        · exact hyx
        · exact hyys.1 b hb'
      · exact ih hyys.2
          (fun y' hy' => htot y' (by simp [hy']))
          (fun y' hy' z hz => htrans y' (by simp [hy']) z (by simp [hz]))

theorem pairwise_sortLe (le : α → α → Bool) (l : List α)
    (htot : ∀ a ∈ l, ∀ b ∈ l, le a b = true ∨ le b a = true)
    (htrans : ∀ a ∈ l, ∀ b ∈ l, ∀ c ∈ l,
      le a b = true → le b c = true → le a c = true) :
    (sortLe le l).Pairwise (fun a b => le a b = true) := by
  induction l with
  | nil => simp [sortLe]
  | cons x xs ih =>
    simp only [sortLe]
    refine pairwise_insertLe le x (sortLe le xs) ?_ ?_ ?_
    · exact ih (fun a ha b hb => htot a (by simp [ha]) b (by simp [hb]))
        (fun a ha b hb c hc =>
          htrans a (by simp [ha]) b (by simp [hb]) c (by simp [hc]))
    · intro y hy
      exact htot x (by simp) y (by simp [(mem_sortLe le xs y).1 hy])
    · intro y hy z hz
      exact htrans x (by simp) y (by simp [(mem_sortLe le xs y).1 hy])
        z (by simp [(mem_sortLe le xs z).1 hz])

/-! ### Association-list lemmas -/

theorem alookup_cons {β : Type} (k : String) (p : String × β) (t : List (String × β)) :
    alookup k (p :: t) = if p.1 = k then some p.2 else alookup k t := rfl

theorem alookup_aupdate {β : Type} (k k' : String) (f : β → β) (m : List (String × β)) :
    alookup k' (aupdate k f m) = if k = k' then (alookup k' m).map f else alookup k' m := by
  induction m with
  | nil => by_cases h : k = k' <;> simp [alookup, aupdate, h]
  | cons p rest ih =>
    simp only [aupdate]
    by_cases h1 : p.1 = k
    · rw [if_pos h1, alookup_cons, alookup_cons]
      by_cases h2 : p.1 = k'
      · have hkk : k = k' := h1.symm.trans h2
        rw [if_pos h2, if_pos h2, if_pos hkk]
        rfl
      · have hkk : ¬ k = k' := fun hh => h2 (h1.trans hh)
        rw [if_neg h2, if_neg h2, if_neg hkk, ih, if_neg hkk]
    · rw [if_neg h1, alookup_cons, alookup_cons]
      by_cases h2 : p.1 = k'
      · have hkk : ¬ k = k' := fun hh => h1 (h2.trans hh.symm)
        rw [if_pos h2, if_pos h2, if_neg hkk]
      · rw [if_neg h2, if_neg h2, ih]

theorem alookup_ensure_self {β : Type} (k : String) (d : β) (m : List (String × β)) :
    alookup k (ensure k d m) = some ((alookup k m).getD d) := by
  induction m with
  | nil => simp [alookup, ensure]
  | cons p rest ih =>
    simp only [ensure]
    by_cases h : p.1 = k
    · rw [if_pos h, alookup_cons, if_pos h]
      rfl
    · rw [if_neg h, alookup_cons, alookup_cons, if_neg h, if_neg h, ih]

theorem alookup_ensure_ne {β : Type} (k k' : String) (d : β) (m : List (String × β))
    (h : ¬ k = k') : alookup k' (ensure k d m) = alookup k' m := by
  induction m with
  | nil =>
    rw [show ensure k d ([] : List (String × β)) = [(k, d)] from rfl, alookup_cons,
      if_neg h]
  | cons p rest ih =>
    simp only [ensure]
    by_cases h1 : p.1 = k
    · rw [if_pos h1]
    · rw [if_neg h1, alookup_cons, alookup_cons]
      by_cases h2 : p.1 = k'
      · rw [if_pos h2, if_pos h2]
      · rw [if_neg h2, if_neg h2, ih]

theorem akeys_aupdate {β : Type} (k : String) (f : β → β) (m : List (String × β)) :
    akeys (aupdate k f m) = akeys m := by
  induction m with
  | nil => rfl
  | cons p rest ih =>
    simp only [aupdate]
    by_cases h : p.1 = k
    · simp only [if_pos h, akeys, List.map_cons]
      rw [show (aupdate k f rest).map Prod.fst = akeys (aupdate k f rest) from rfl, ih]
      rfl
    · simp only [if_neg h, akeys, List.map_cons]
      rw [show (aupdate k f rest).map Prod.fst = akeys (aupdate k f rest) from rfl, ih]
      rfl

theorem alookup_eq_none_iff {β : Type} (k : String) (m : List (String × β)) :
    alookup k m = none ↔ k ∉ akeys m := by
  induction m with
  | nil => simp [alookup, akeys]
  | cons p rest ih =>
    rw [alookup_cons]
    by_cases h : p.1 = k
    · rw [if_pos h]
      simp [akeys, h]
    · rw [if_neg h]
      have hne : ¬ k = p.1 := fun hh => h hh.symm
      simp [akeys, hne, ih]

theorem akeys_ensure {β : Type} (k : String) (d : β) (m : List (String × β)) :
    akeys (ensure k d m) = if k ∈ akeys m then akeys m else akeys m ++ [k] := by
  induction m with
  | nil => simp [akeys, ensure]
  | cons p rest ih =>
    simp only [ensure]
    by_cases h : p.1 = k
    · have hk : k ∈ akeys (p :: rest) := by simp [akeys, h]
      rw [if_pos h, if_pos hk]
    · have hne : ¬ k = p.1 := fun hh => h hh.symm
      rw [if_neg h]
      have hcons : akeys (p :: ensure k d rest) = p.1 :: akeys (ensure k d rest) := rfl
      rw [hcons, ih]
      have hmem : (k ∈ akeys (p :: rest)) = (k ∈ akeys rest) := by
        simp [akeys, hne]
      by_cases hm : k ∈ akeys rest
      · rw [if_pos hm, if_pos (by rw [hmem]; exact hm)]
        rfl
      · rw [if_neg hm, if_neg (by rw [hmem]; exact hm)]
        rfl

theorem nodup_akeys_ensure {β : Type} (k : String) (d : β) (m : List (String × β))
    (h : (akeys m).Nodup) : (akeys (ensure k d m)).Nodup := by
  rw [akeys_ensure]
  by_cases hm : k ∈ akeys m
  · simpa [hm] using h
  · simp only [hm, if_false]
    simp [List.nodup_append, h, hm]

theorem alookup_of_mem {β : Type} (k : String) (v : β) (m : List (String × β))
    (hnd : (akeys m).Nodup) (h : (k, v) ∈ m) : alookup k m = some v := by
  induction m with
  | nil => simp at h
  | cons p rest ih =>
    simp only [akeys, List.map_cons, List.nodup_cons] at hnd
    rcases List.mem_cons.1 h with rfl | h'
    · simp [alookup]
    · have hpk : ¬ p.1 = k := by
        intro hh
        exact hnd.1 (by
          subst hh
          exact List.mem_map.2 ⟨(p.1, v), h', rfl⟩)
      simp [alookup, hpk, ih hnd.2 h']

theorem flatMap_snd_apush {β : Type} (k : String) (v : β) (m : List (String × List β)) :
    ((apush k v m).flatMap Prod.snd).Perm (v :: m.flatMap Prod.snd) := by
  induction m with
  | nil => simp [apush]
  | cons p rest ih =>
    simp only [apush]
    by_cases h : p.1 = k
    · rw [if_pos h]
      have hre : ((p.1, p.2 ++ [v]) :: rest).flatMap Prod.snd
          = p.2 ++ v :: rest.flatMap Prod.snd := by
        simp [List.flatMap_cons]
      rw [hre]
      exact List.perm_middle
    · rw [if_neg h]
      have hre : (p :: apush k v rest).flatMap Prod.snd
          = p.2 ++ (apush k v rest).flatMap Prod.snd := by
        simp [List.flatMap_cons]
      rw [hre]
      exact (List.Perm.append_left p.2 ih).trans List.perm_middle

/-! ### Sanity checks of the date arithmetic -/

example : daysFromCivil 2024 1 1 = 19723 := by decide

example : daysFromCivil 1970 1 1 = 0 := by decide

example : civilFromDays 19723 = (2024, 1, 1) := by decide

example : civilFromDays 0 = (1970, 1, 1) := by decide

example : localDateString 0 1704103200000 = "2024-01-01" := by decide

example : msToIso 1704103200000 = "2024-01-01T10:00:00.000Z" := by decide

/-! ### Reader lemmas and claim theorems -/

/-- Helper for C7 and C4: a `null` element of `allComposers` makes the filter
callback throw, so the whole filter pass errors out. -/
theorem filterE_error_of_null :
    ∀ elems : List RawElem, RawElem.jnullElem ∈ elems →
      filterE composerFilterCb elems = .error () := by
  intro elems
  induction elems with
  | nil => intro h; simp at h
  | cons e rest ih =>
    intro h
    rcases List.mem_cons.1 h with rfl | h'
    · rfl
    · cases e with
      | jnullElem => rfl
      | jrec c =>
        simp only [filterE, composerFilterCb]
        rw [ih h']

/-- Helper for C4: when no element of `allComposers` is `null`, the filter
pass succeeds and agrees with the pure filter by `validRaw`. -/
theorem filterE_ok_of_no_null :
    ∀ elems : List RawElem, (∀ e ∈ elems, e ≠ RawElem.jnullElem) →
      filterE composerFilterCb elems = .ok (elems.filter validRaw) := by
  intro elems
  induction elems with
  | nil => intro _; rfl
  | cons e rest ih =>
    intro h
    have he := h e (by simp)
    cases e with
    | jnullElem => exact absurd rfl he
    | jrec c =>
      simp only [filterE, composerFilterCb]
      rw [ih (fun x hx => h x (by simp [hx]))]
      simp [List.filter_cons, validRaw]

/-- C7: `extractPrompts` and `extractComposers` are total (they are plain
Lean functions, so they cannot raise), and every failure outcome — the
database cannot be opened, the key is missing, the stored JSON is corrupt,
the parsed value does not have the expected array shape, or a `null` array
element makes a property read throw — produces the empty sequence. -/
theorem readers_fail_to_empty :
    (extractPrompts .openFail = [] ∧ extractPrompts .missingKey = [] ∧
     extractPrompts .corrupt = [] ∧ extractPrompts .parsedNonArray = []) ∧
    (∀ env : SrvEnv,
      extractComposers env .openFail = [] ∧ extractComposers env .missingKey = [] ∧
      extractComposers env .corrupt = [] ∧ extractComposers env .parsedNoArray = []) ∧
    (∀ env : SrvEnv, ∀ elems : List RawElem, RawElem.jnullElem ∈ elems →
      extractComposers env (.parsedArray elems) = []) := by
  refine ⟨⟨rfl, rfl, rfl, rfl⟩, fun env => ⟨rfl, rfl, rfl, rfl⟩, ?_⟩
  intro env elems h
  simp [extractComposers, filterE_error_of_null elems h]

/-- Witness for C7 at a concrete failing input. -/
theorem readers_fail_to_empty_witness :
    extractComposers exEnv0 (.parsedArray [RawElem.jnullElem]) = [] :=
  readers_fail_to_empty.2.2 exEnv0 [RawElem.jnullElem] (by simp)

/-- C5: every workspace returned by `listWorkspaces` has at least one prompt
or at least one composer (a workspace with neither is excluded, whatever its
modification time — no modification-time condition can re-admit it), and the
returned list is sorted descending by modification timestamp. -/
theorem listWorkspaces_excludes_empty_and_sorted (env : SrvEnv) (daysBack now : Int)
    (fs : List FsEntry) :
    (∀ w ∈ listWorkspaces env daysBack now fs, w.prompts ≠ [] ∨ w.composers ≠ []) ∧
    (listWorkspaces env daysBack now fs).Pairwise
      (fun a b => b.modifiedTimestamp ≤ a.modifiedTimestamp) := by
  constructor
  · intro w hw
    simp only [listWorkspaces] at hw
    have hw1 := (mem_sortLe _ _ _).1 hw
    rcases List.mem_filterMap.1 hw1 with ⟨e, _, hfe⟩
    split_ifs at hfe with h1 h2 h3
    cases Option.some.inj hfe
    rcases h3 with h | h
    · exact Or.inl (List.length_pos.mp h)
    · exact Or.inr (List.length_pos.mp h)
  · simp only [listWorkspaces]
    refine (pairwise_sortLe _ _ ?_ ?_).imp ?_
    · intro a _ b _
      simp only [decide_eq_true_eq]
      exact le_total b.modifiedTimestamp a.modifiedTimestamp
    · intro a _ b _ c _ hab hbc
      simp only [decide_eq_true_eq] at hab hbc ⊢
      omega
    · intro a b h
      exact of_decide_eq_true h

/-- Witness for C5 at a concrete input. -/
theorem listWorkspaces_excludes_empty_witness :
    exW1.prompts ≠ [] ∨ exW1.composers ≠ [] :=
  (listWorkspaces_excludes_empty_and_sorted exEnv0 30 0 exFs1).1 exW1 (by decide)

/-- C8: when no enumerated workspace (365-day window) has the requested id,
the workspace-detail handler answers status 404 with the error payload
`Workspace not found`, carrying no workspace data. -/
theorem workspaceDetail_unknown_404 (env : SrvEnv) (now : Int) (fs : List FsEntry)
    (id : String) (df : Option CivilDate)
    (h : ∀ w ∈ listWorkspaces env 365 now fs, w.id ≠ id) :
    getWorkspaceDetail env now fs id df = .notFound 404 "Workspace not found" := by
  have hf : (listWorkspaces env 365 now fs).find? (fun ws => ws.id == id) = none := by
    rw [List.find?_eq_none]
    intro x hx
    simp [h x hx]
  simp [getWorkspaceDetail, hf]

/-- Witness for C8 at a concrete input. -/
theorem workspaceDetail_unknown_404_witness :
    getWorkspaceDetail exEnv0 0 [] "missing" none = .notFound 404 "Workspace not found" :=
  workspaceDetail_unknown_404 exEnv0 0 [] "missing" none (by decide)

/-- C6: when every retained bubble has a creation timestamp the bubbles
endpoint returns them sorted ascending by creation time; the comparator
treats any pair involving a bubble without a timestamp as equal (non-strict
ordering); and the endpoint returns the empty array without error both when
the global database file does not exist and when no rows are stored for the
composer. -/
theorem bubbles_sorted_and_empty (rows : List BubbleRow) :
    ((∀ b ∈ bubblesOf rows, b.createdAt.isSome = true) →
      (bubblesEndpoint true false rows).Pairwise
        (fun a b => a.createdAt.getD 0 ≤ b.createdAt.getD 0)) ∧
    (∀ a b : Bubble, a.createdAt = none ∨ b.createdAt = none → bubbleCmp a b = 0) ∧
    (∀ rf : Bool, ∀ rows2 : List BubbleRow, bubblesEndpoint false rf rows2 = []) ∧
    bubblesEndpoint true false [] = [] := by
  refine ⟨?_, ?_, fun _ _ => rfl, rfl⟩
  · intro h
    have hend : bubblesEndpoint true false rows
        = sortLe (fun a b => decide (bubbleCmp a b ≤ 0)) (bubblesOf rows) := rfl
    rw [hend]
    refine List.Pairwise.imp_of_mem ?_
      (pairwise_sortLe (fun a b => decide (bubbleCmp a b ≤ 0)) (bubblesOf rows) ?_ ?_)
    · intro a b ha hb hab
      have ha' := (mem_sortLe _ _ _).1 ha
      have hb' := (mem_sortLe _ _ _).1 hb
      obtain ⟨x, hx⟩ := Option.isSome_iff_exists.mp (h a ha')
      obtain ⟨y, hy⟩ := Option.isSome_iff_exists.mp (h b hb')
      simp only [bubbleCmp, hx, hy, decide_eq_true_eq] at hab
      simp only [hx, hy, Option.getD_some]
      omega
    · intro a ha b hb
      obtain ⟨x, hx⟩ := Option.isSome_iff_exists.mp (h a ha)
      obtain ⟨y, hy⟩ := Option.isSome_iff_exists.mp (h b hb)
      simp only [bubbleCmp, hx, hy, decide_eq_true_eq]
      omega
    · intro a ha b hb c hc hab hbc
      obtain ⟨x, hx⟩ := Option.isSome_iff_exists.mp (h a ha)
      obtain ⟨y, hy⟩ := Option.isSome_iff_exists.mp (h b hb)
      obtain ⟨z, hz⟩ := Option.isSome_iff_exists.mp (h c hc)
      simp only [bubbleCmp, hx, hy, hz, decide_eq_true_eq] at hab hbc ⊢
      omega
  · intro a b hor
    rcases hor with h | h
    · cases hb : b.createdAt <;> simp [bubbleCmp, h, hb]
    · cases ha : a.createdAt <;> simp [bubbleCmp, h, ha]

/-- Witness for C6 at a concrete input. -/
theorem bubbles_sorted_and_empty_witness :
    (bubblesEndpoint true false c6Rows).Pairwise
      (fun a b => a.createdAt.getD 0 ≤ b.createdAt.getD 0) :=
  (bubbles_sorted_and_empty c6Rows).1 (by decide)

/-- C1, counterexample to the claim as stated: the query `" "` consists only
of whitespace, yet the search endpoint does not special-case it — the code
only rejects the empty string (`if (!query)`), so `" "` is matched as an
ordinary substring and hits the prompt text `"a b"`.  The claim predicts an
empty result. -/
theorem search_whitespace_matches :
    (" ").data.all Char.isWhitespace = true ∧
    searchEndpoint exEnv0 0 exFs1 " " ≠ [] := by
  exact ⟨by decide, by decide⟩

/-- C1, amended: only the *empty* query short-circuits to `[]` (a
whitespace-only query is matched like any other string); a query whose
lowercased form is a substring of no prompt's lowercased text yields `[]`;
and the result never has more than 100 entries. -/
theorem search_empty_nomatch_cap (env : SrvEnv) (now : Int) (fs : List FsEntry)
    (q : String) :
    (searchEndpoint env now fs "" = []) ∧
    ((∀ ws ∈ listWorkspaces env 30 now fs, ∀ p ∈ ws.prompts, ∀ t : String,
        p.text = some t → strIncludes (toLowerStr t) (toLowerStr q) = false) →
      searchEndpoint env now fs q = []) ∧
    (searchEndpoint env now fs q).length ≤ 100 := by
  refine ⟨rfl, ?_, ?_⟩
  · intro h
    simp only [searchEndpoint]
    by_cases hq : toLowerStr q = ""
    · rw [if_pos hq]
    · rw [if_neg hq]
      have hnil : (listWorkspaces env 30 now fs).flatMap (fun ws =>
          ws.prompts.filterMap (fun p =>
            match p.text with
            | some t =>
              if strIncludes (toLowerStr t) (toLowerStr q) then
                some ({ workspace := ws.id, folder := ws.folder, prompt := p } : SearchResult)
              else none
            | none => none)) = [] := by
        apply List.eq_nil_iff_forall_not_mem.mpr
        intro r hr
        rcases List.mem_flatMap.1 hr with ⟨ws, hws, hr2⟩
        rcases List.mem_filterMap.1 hr2 with ⟨p, hp, he⟩
        cases hpt : p.text with
        | none =>
          simp only [hpt] at he
          exact Option.noConfusion he
        | some t =>
          simp only [hpt, h ws hws p hp t hpt, if_false] at he
          exact Option.noConfusion he
      rw [hnil]
      rfl
  · simp only [searchEndpoint]
    by_cases hq : toLowerStr q = ""
    · rw [if_pos hq]
      simp
    · rw [if_neg hq]
      rw [List.length_take]
      exact min_le_left _ _

/-- Witness for C1 (amended) at a concrete input: `"zzz"` matches nothing. -/
theorem search_empty_nomatch_cap_witness :
    searchEndpoint exEnv0 0 exFs1 "zzz" = [] :=
  (search_empty_nomatch_cap exEnv0 0 exFs1 "zzz").2.1 (by
    intro ws hws p hp t ht
    have hl : listWorkspaces exEnv0 30 0 exFs1 = [exW1] := rfl
    rw [hl] at hws
    have hws' : ws = exW1 := by simpa using hws
    subst hws'
    have hp' : p = exPrompt1 := by simpa [exW1] using hp
    subst hp'
    have ht' : t = "a b" := (Option.some.inj ht).symm
    subst ht'
    decide)

/-- C4, counterexample to the claim as stated: `c4Good` has a truthy
`composerId` and a positive numeric `lastUpdatedAt`, yet when the
`allComposers` array also contains a `null` element the whole extraction
returns `[]` (the property read on `null` throws and the `catch` swallows
the batch), so the valid record does not appear. -/
theorem extractComposers_null_aborts :
    validRaw (.jrec c4Good) = true ∧
    extractComposers exEnv0 (.parsedArray [RawElem.jnullElem, .jrec c4Good]) = [] := by
  exact ⟨by decide, by decide⟩

/-- C4, amended: provided no element of `allComposers` is `null`, the
extraction retains exactly the records with a truthy `composerId` and a
numeric `lastUpdatedAt` greater than zero (normalized by the map callback),
and the retention predicate says exactly that. -/
theorem extractComposers_keeps_valid (env : SrvEnv) (elems : List RawElem)
    (hnn : ∀ e ∈ elems, e ≠ RawElem.jnullElem) :
    extractComposers env (.parsedArray elems)
      = (elems.filter validRaw).map (composerMapCb env) ∧
    (∀ e : RawElem, validRaw e = true ↔
      ∃ c : RawComposer, e = .jrec c ∧ truthy c.composerId = true ∧
        ∃ n : Int, c.lastUpdatedAt = .jnum n ∧ 0 < n) := by
  constructor
  · simp [extractComposers, filterE_ok_of_no_null elems hnn]
  · intro e
    cases e with
    | jnullElem => simp [validRaw]
    | jrec c =>
      cases hlu : c.lastUpdatedAt <;>
        simp [validRaw, isPosNum, hlu, Bool.and_eq_true]

/-- Witness for C4 (amended) at a concrete input. -/
theorem extractComposers_keeps_valid_witness :
    extractComposers exEnv0 (.parsedArray [.jrec c4Good])
      = ([RawElem.jrec c4Good].filter validRaw).map (composerMapCb exEnv0) :=
  (extractComposers_keeps_valid exEnv0 [.jrec c4Good] (by decide)).1

/-- C10: for a known id, supplying the `date` parameter changes only the
`composers` field of the detail response: every other field is identical to
the unfiltered response, `composersByDate` is in both cases the grouping of
*all* of the workspace's composers (not the filtered subset), and the
`composers` field itself is the window filter of the unfiltered list. -/
theorem workspaceDetail_frame (env : SrvEnv) (now : Int) (fs : List FsEntry)
    (id : String) (cd : CivilDate) (r1 r2 : DetailResponse)
    (hA : getWorkspaceDetail env now fs id (some cd) = .found 200 r1)
    (hB : getWorkspaceDetail env now fs id none = .found 200 r2) :
    r1.id = r2.id ∧ r1.path = r2.path ∧ r1.folder = r2.folder ∧
    r1.modified = r2.modified ∧ r1.modifiedTimestamp = r2.modifiedTimestamp ∧
    r1.promptCount = r2.promptCount ∧ r1.prompts = r2.prompts ∧
    r1.composersByDate = r2.composersByDate ∧
    r1.composersByDate = groupComposersByDate env r2.composers ∧
    r1.composers = r2.composers.filter (fun c =>
      decide (dayStart env cd ≤ c.lastUpdatedAt) &&
        decide (c.lastUpdatedAt ≤ dayEnd env cd)) := by
  cases hfind : (listWorkspaces env 365 now fs).find? (fun ws => ws.id == id) with
  | none => simp [getWorkspaceDetail, hfind] at hA
  | some ws =>
    simp only [getWorkspaceDetail, hfind] at hA hB
    injection hA with _ hA2
    injection hB with _ hB2
    subst hA2
    subst hB2
    exact ⟨rfl, rfl, rfl, rfl, rfl, rfl, rfl, rfl, rfl, rfl⟩

/-- Witness for C10 at a concrete input. -/
theorem workspaceDetail_frame_witness :
    c10R1.id = c10R2.id ∧ c10R1.path = c10R2.path ∧ c10R1.folder = c10R2.folder ∧
    c10R1.modified = c10R2.modified ∧
    c10R1.modifiedTimestamp = c10R2.modifiedTimestamp ∧
    c10R1.promptCount = c10R2.promptCount ∧ c10R1.prompts = c10R2.prompts ∧
    c10R1.composersByDate = c10R2.composersByDate ∧
    c10R1.composersByDate = groupComposersByDate exEnv0 c10R2.composers ∧
    c10R1.composers = c10R2.composers.filter (fun c =>
      decide (dayStart exEnv0 ⟨2024, 1, 1⟩ ≤ c.lastUpdatedAt) &&
        decide (c.lastUpdatedAt ≤ dayEnd exEnv0 ⟨2024, 1, 1⟩)) :=
  workspaceDetail_frame exEnv0 c2Now c2Fs "wsA" ⟨2024, 1, 1⟩ c10R1 c10R2
    (by decide) (by decide)

/-- C2: for a known id and a `date=YYYY-MM-DD` filter, the returned
`composers` are exactly the composers of that workspace whose `lastUpdatedAt`
lies in the closed local-time interval `[startOfDay, endOfDay]` of that date
(first conjunct, for every input), and on the spec's example — composers
last updated `2024-01-01T10:00:00Z` and `2024-01-02T10:00:00Z`, filter
`date=2024-01-01` — exactly the first composer is returned (second
conjunct).  The example depends on the local zone: it holds for every fixed
UTC offset between -10h and +13:59:59.999h, which covers the zones in which
`T10:00Z` falls on the local date of the spec's example; the hypotheses pin
the offset to that range. -/
theorem workspaceDetail_date_filter (off : Int) (ls : JsonVal → String)
    (h1 : -36000000 ≤ off) (h2 : off ≤ 50399999) :
    (∀ (now : Int) (fs : List FsEntry) (id : String) (cd : CivilDate) (ws : Workspace),
      (listWorkspaces ⟨off, ls⟩ 365 now fs).find? (fun w => w.id == id) = some ws →
      ∀ c : Composer,
        c ∈ detailComposers (getWorkspaceDetail ⟨off, ls⟩ now fs id (some cd)) ↔
          c ∈ ws.composers ∧ dayStart ⟨off, ls⟩ cd ≤ c.lastUpdatedAt ∧
            c.lastUpdatedAt ≤ dayEnd ⟨off, ls⟩ cd) ∧
    detailComposers (getWorkspaceDetail ⟨off, ls⟩ c2Now c2Fs "wsA"
      (some ⟨2024, 1, 1⟩)) = [c2FirstComposer] := by
  constructor
  · intro now fs id cd ws hfind c
    simp only [getWorkspaceDetail, hfind, detailComposers]
    simp only [List.mem_filter, Bool.and_eq_true, decide_eq_true_eq]
  · have hfind : (listWorkspaces ⟨off, ls⟩ 365 c2Now c2Fs).find? (fun w => w.id == "wsA")
        = some { id := "wsA", path := "wsA/state.vscdb", folder := none,
                 modified := msToIso 1704189600000,
                 modifiedTimestamp := 1704189600000, promptCount := 0, prompts := [],
                 composers := [c2FirstComposer, c2SecondComposer] } := rfl
    simp only [getWorkspaceDetail, hfind, detailComposers]
    have hpa : (decide (dayStart ⟨off, ls⟩ ⟨2024, 1, 1⟩ ≤ c2FirstComposer.lastUpdatedAt) &&
        decide (c2FirstComposer.lastUpdatedAt ≤ dayEnd ⟨off, ls⟩ ⟨2024, 1, 1⟩)) = true := by
      have hs : dayStart ⟨off, ls⟩ ⟨2024, 1, 1⟩ = 19723 * 86400000 - off := rfl
      have he : dayEnd ⟨off, ls⟩ ⟨2024, 1, 1⟩ = 19723 * 86400000 + 86399999 - off := rfl
      have hl : c2FirstComposer.lastUpdatedAt = 1704103200000 := rfl
      rw [Bool.and_eq_true, decide_eq_true_eq, decide_eq_true_eq, hs, he, hl]
      constructor <;> omega
    have hpb : (decide (dayStart ⟨off, ls⟩ ⟨2024, 1, 1⟩ ≤ c2SecondComposer.lastUpdatedAt) &&
        decide (c2SecondComposer.lastUpdatedAt ≤ dayEnd ⟨off, ls⟩ ⟨2024, 1, 1⟩)) = false := by
      have he : dayEnd ⟨off, ls⟩ ⟨2024, 1, 1⟩ = 19723 * 86400000 + 86399999 - off := rfl
      have hl : c2SecondComposer.lastUpdatedAt = 1704189600000 := rfl
      have hb : ¬ ((1704189600000 : Int) ≤ 19723 * 86400000 + 86399999 - off) := by omega
      rw [hl, he, decide_eq_false hb, Bool.and_false]
    simp [List.filter_cons, List.filter_nil, hpa, hpb]

/-- Witness for C2 at the offset 0 (UTC). -/
theorem workspaceDetail_date_filter_witness :
    detailComposers (getWorkspaceDetail ⟨0, fun _ => ""⟩ c2Now c2Fs "wsA"
      (some ⟨2024, 1, 1⟩)) = [c2FirstComposer] :=
  (workspaceDetail_date_filter 0 (fun _ => "") (by decide) (by decide)).2

/-- Reading a count out of a known lookup. -/
theorem pcnt_eq_of_alookup (m : List (String × DateEntry)) (d : String) (e : DateEntry)
    (he : alookup d m = some e) : pcnt m d = e.promptCount := by
  unfold pcnt
  rw [he]

/-- Reading a count out of a known lookup. -/
theorem ccnt_eq_of_alookup (m : List (String × DateEntry)) (d : String) (e : DateEntry)
    (he : alookup d m = some e) : ccnt m d = e.composerCount := by
  unfold ccnt
  rw [he]

/-- Updating under another key leaves the prompt count alone. -/
theorem pcnt_aupdate_ne (k : String) (f : DateEntry → DateEntry)
    (m : List (String × DateEntry)) (d : String) (h : ¬ k = d) :
    pcnt (aupdate k f m) d = pcnt m d := by
  unfold pcnt
  rw [alookup_aupdate, if_neg h]

/-- Updating under another key leaves the composer count alone. -/
theorem ccnt_aupdate_ne (k : String) (f : DateEntry → DateEntry)
    (m : List (String × DateEntry)) (d : String) (h : ¬ k = d) :
    ccnt (aupdate k f m) d = ccnt m d := by
  unfold ccnt
  rw [alookup_aupdate, if_neg h]

/-- An update that does not touch the prompt count preserves it. -/
theorem pcnt_aupdate_preserve (k : String) (f : DateEntry → DateEntry)
    (m : List (String × DateEntry)) (d : String)
    (hf : ∀ e, (f e).promptCount = e.promptCount) :
    pcnt (aupdate k f m) d = pcnt m d := by
  unfold pcnt
  rw [alookup_aupdate]
  by_cases h : k = d
  · rw [if_pos h]
    cases alookup d m <;> simp [hf]
  · rw [if_neg h]

/-- An update that does not touch the composer count preserves it. -/
theorem ccnt_aupdate_preserve (k : String) (f : DateEntry → DateEntry)
    (m : List (String × DateEntry)) (d : String)
    (hf : ∀ e, (f e).composerCount = e.composerCount) :
    ccnt (aupdate k f m) d = ccnt m d := by
  unfold ccnt
  rw [alookup_aupdate]
  by_cases h : k = d
  · rw [if_pos h]
    cases alookup d m <;> simp [hf]
  · rw [if_neg h]

/-- Ensuring a key with the zero entry does not change any prompt count. -/
theorem pcnt_ensure (k : String) (v : DateEntry) (m : List (String × DateEntry))
    (d : String) (hv : v.promptCount = 0) : pcnt (ensure k v m) d = pcnt m d := by
  unfold pcnt
  by_cases h : k = d
  · subst h
    rw [alookup_ensure_self]
    cases hm : alookup k m <;> simp [hm, hv]
  · rw [alookup_ensure_ne _ _ _ _ h]

/-- Ensuring a key with the zero entry does not change any composer count. -/
theorem ccnt_ensure (k : String) (v : DateEntry) (m : List (String × DateEntry))
    (d : String) (hv : v.composerCount = 0) : ccnt (ensure k v m) d = ccnt m d := by
  unfold ccnt
  by_cases h : k = d
  · subst h
    rw [alookup_ensure_self]
    cases hm : alookup k m <;> simp [hm, hv]
  · rw [alookup_ensure_ne _ _ _ _ h]

/-- A present key stays present through `aupdate`. -/
theorem alookup_isSome_aupdate (k : String) (f : DateEntry → DateEntry)
    (m : List (String × DateEntry)) (d : String)
    (h : (alookup d m).isSome = true) : (alookup d (aupdate k f m)).isSome = true := by
  rw [alookup_aupdate]
  by_cases hk : k = d
  · rw [if_pos hk]
    cases hm : alookup d m
    · rw [hm] at h; simp at h
    · simp
  · rw [if_neg hk]
    exact h

/-- A present key stays present through `ensure`. -/
theorem alookup_isSome_ensure (k : String) (v : DateEntry)
    (m : List (String × DateEntry)) (d : String)
    (h : (alookup d m).isSome = true) : (alookup d (ensure k v m)).isSome = true := by
  by_cases hk : k = d
  · subst hk
    rw [alookup_ensure_self]
    rfl
  · rw [alookup_ensure_ne _ _ _ _ hk]
    exact h

/-- A present key stays present through `addComposer`. -/
theorem alookup_isSome_addComposer (env : SrvEnv) (wsId : String)
    (m : List (String × DateEntry)) (c : Composer) (d : String)
    (h : (alookup d m).isSome = true) :
    (alookup d (addComposer env wsId m c)).isSome = true := by
  unfold addComposer
  exact alookup_isSome_aupdate _ _ _ _ (alookup_isSome_ensure _ _ _ _ h)

/-- A present key stays present through a composer fold. -/
theorem alookup_isSome_foldAdd (env : SrvEnv) (wsId : String) (cs : List Composer) :
    ∀ (m : List (String × DateEntry)) (d : String),
      (alookup d m).isSome = true →
      (alookup d (cs.foldl (addComposer env wsId) m)).isSome = true := by
  induction cs with
  | nil => intro m d h; exact h
  | cons c rest ih =>
    intro m d h
    simp only [List.foldl_cons]
    exact ih _ _ (alookup_isSome_addComposer env wsId m c d h)

/-- `addComposer` never changes a prompt count. -/
theorem pcnt_addComposer (env : SrvEnv) (wsId : String) (m : List (String × DateEntry))
    (c : Composer) (d : String) : pcnt (addComposer env wsId m c) d = pcnt m d := by
  unfold addComposer
  have h1 := pcnt_aupdate_preserve (localDateString env.tzOffsetMs c.lastUpdatedAt)
    (fun e => { e with workspaces := pushUnique e.workspaces wsId,
                       composerCount := e.composerCount + 1 })
    (ensure (localDateString env.tzOffsetMs c.lastUpdatedAt) ⟨0, [], 0⟩ m) d
    (fun e => rfl)
  rw [h1]
  exact pcnt_ensure _ _ _ _ rfl

/-- `addComposer` bumps exactly the composer count of its own date. -/
theorem ccnt_addComposer (env : SrvEnv) (wsId : String) (m : List (String × DateEntry))
    (c : Composer) (d : String) :
    ccnt (addComposer env wsId m c) d
      = ccnt m d + (if localDateString env.tzOffsetMs c.lastUpdatedAt = d then 1 else 0) := by
  unfold addComposer
  by_cases h : localDateString env.tzOffsetMs c.lastUpdatedAt = d
  · rw [if_pos h]
    subst h
    unfold ccnt
    rw [alookup_aupdate, if_pos rfl, alookup_ensure_self]
    cases hm : alookup (localDateString env.tzOffsetMs c.lastUpdatedAt) m <;> simp [hm]
  · rw [if_neg h, add_zero, ccnt_aupdate_ne _ _ _ _ h]
    exact ccnt_ensure _ _ _ _ rfl

/-- Folding composers never changes prompt counts. -/
theorem pcnt_foldAdd (env : SrvEnv) (wsId : String) (cs : List Composer) :
    ∀ (m : List (String × DateEntry)) (d : String),
      pcnt (cs.foldl (addComposer env wsId) m) d = pcnt m d := by
  induction cs with
  | nil => intro m d; rfl
  | cons c rest ih =>
    intro m d
    simp only [List.foldl_cons]
    rw [ih, pcnt_addComposer]

/-- Folding composers adds each composer to the count of its own date. -/
theorem ccnt_foldAdd (env : SrvEnv) (wsId : String) (cs : List Composer) :
    ∀ (m : List (String × DateEntry)) (d : String),
      ccnt (cs.foldl (addComposer env wsId) m) d
        = ccnt m d + cs.countP (fun c =>
            decide (localDateString env.tzOffsetMs c.lastUpdatedAt = d)) := by
  induction cs with
  | nil => intro m d; simp
  | cons c rest ih =>
    intro m d
    simp only [List.foldl_cons]
    rw [ih, ccnt_addComposer, List.countP_cons]
    by_cases h : localDateString env.tzOffsetMs c.lastUpdatedAt = d
    · simp only [h, if_pos rfl, decide_true_eq_true]
      omega
    · simp only [if_neg h, decide_eq_true_eq]
      simp [h]

/-- Unfolding `pTally` over a cons. -/
theorem pTally_cons (env : SrvEnv) (d : String) (ws : Workspace) (rest : List Workspace) :
    pTally env d (ws :: rest)
      = (if localDateString env.tzOffsetMs ws.modifiedTimestamp = d
          then ws.promptCount else 0) + pTally env d rest := by
  unfold pTally
  rw [List.filter_cons]
  by_cases h : localDateString env.tzOffsetMs ws.modifiedTimestamp = d
  · simp [h]
  · simp [h]

/-- Unfolding `cTally` over a cons. -/
theorem cTally_cons (env : SrvEnv) (d : String) (ws : Workspace) (rest : List Workspace) :
    cTally env d (ws :: rest)
      = ws.composers.countP (fun c =>
          decide (localDateString env.tzOffsetMs c.lastUpdatedAt = d))
        + cTally env d rest := by
  unfold cTally
  rw [List.flatMap_cons, List.countP_append]

/-- One workspace adds its prompt count to the entry of its own
modification date and nothing else. -/
theorem pcnt_processWs (env : SrvEnv) (m : List (String × DateEntry)) (ws : Workspace)
    (d : String) :
    pcnt (processWs env m ws) d
      = pcnt m d + (if localDateString env.tzOffsetMs ws.modifiedTimestamp = d
          then ws.promptCount else 0) := by
  unfold processWs
  by_cases h : localDateString env.tzOffsetMs ws.modifiedTimestamp = d
  · rw [if_pos h]
    have hsome : (alookup d (ws.composers.foldl (addComposer env ws.id)
        (ensure (localDateString env.tzOffsetMs ws.modifiedTimestamp) ⟨0, [], 0⟩ m))).isSome
        = true := by
      apply alookup_isSome_foldAdd
      rw [h] at *
      rw [alookup_ensure_self]
      rfl
    obtain ⟨e, he⟩ := Option.isSome_iff_exists.mp hsome
    have hev : e.promptCount = pcnt m d := by
      have hfold : pcnt (ws.composers.foldl (addComposer env ws.id)
          (ensure (localDateString env.tzOffsetMs ws.modifiedTimestamp) ⟨0, [], 0⟩ m)) d
          = pcnt m d := by
        rw [pcnt_foldAdd]
        exact pcnt_ensure _ _ _ _ rfl
      rw [← hfold]
      exact (pcnt_eq_of_alookup _ _ _ he).symm
    have hup : alookup d (aupdate (localDateString env.tzOffsetMs ws.modifiedTimestamp)
        (fun e => { e with promptCount := e.promptCount + ws.promptCount,
                           workspaces := pushUnique e.workspaces ws.id })
        (ws.composers.foldl (addComposer env ws.id)
          (ensure (localDateString env.tzOffsetMs ws.modifiedTimestamp) ⟨0, [], 0⟩ m)))
        = some { promptCount := e.promptCount + ws.promptCount,
                 workspaces := pushUnique e.workspaces ws.id,
                 composerCount := e.composerCount } := by
      rw [alookup_aupdate, if_pos h, he]
      rfl
    rw [pcnt_eq_of_alookup _ _ _ hup]
    rw [hev]
  · rw [if_neg h, add_zero, pcnt_aupdate_ne _ _ _ _ h, pcnt_foldAdd]
    exact pcnt_ensure _ _ _ _ rfl

/-- One workspace adds each of its composers to the count of that composer's
own date and nothing else. -/
theorem ccnt_processWs (env : SrvEnv) (m : List (String × DateEntry)) (ws : Workspace)
    (d : String) :
    ccnt (processWs env m ws) d
      = ccnt m d + ws.composers.countP (fun c =>
          decide (localDateString env.tzOffsetMs c.lastUpdatedAt = d)) := by
  unfold processWs
  have h1 := ccnt_aupdate_preserve (localDateString env.tzOffsetMs ws.modifiedTimestamp)
    (fun e => { e with promptCount := e.promptCount + ws.promptCount,
                       workspaces := pushUnique e.workspaces ws.id })
    (ws.composers.foldl (addComposer env ws.id)
      (ensure (localDateString env.tzOffsetMs ws.modifiedTimestamp) ⟨0, [], 0⟩ m)) d
    (fun e => rfl)
  rw [h1, ccnt_foldAdd]
  rw [ccnt_ensure _ _ _ _ rfl]

/-- The prompt counts of the fully built date map are the spec-side prompt
tallies. -/
theorem pcnt_foldWs (env : SrvEnv) (wss : List Workspace) :
    ∀ (m : List (String × DateEntry)) (d : String),
      pcnt (wss.foldl (processWs env) m) d = pcnt m d + pTally env d wss := by
  induction wss with
  | nil =>
    intro m d
    simp [pTally]
  | cons ws rest ih =>
    intro m d
    simp only [List.foldl_cons]
    rw [ih, pcnt_processWs, pTally_cons]
    omega

/-- The composer counts of the fully built date map are the spec-side
composer tallies. -/
theorem ccnt_foldWs (env : SrvEnv) (wss : List Workspace) :
    ∀ (m : List (String × DateEntry)) (d : String),
      ccnt (wss.foldl (processWs env) m) d = ccnt m d + cTally env d wss := by
  induction wss with
  | nil =>
    intro m d
    simp [cTally]
  | cons ws rest ih =>
    intro m d
    simp only [List.foldl_cons]
    rw [ih, ccnt_processWs, cTally_cons]
    omega

/-- The date map keeps its keys duplicate-free through `addComposer`. -/
theorem akeys_nodup_addComposer (env : SrvEnv) (wsId : String)
    (m : List (String × DateEntry)) (c : Composer)
    (h : (akeys m).Nodup) : (akeys (addComposer env wsId m c)).Nodup := by
  unfold addComposer
  rw [akeys_aupdate]
  exact nodup_akeys_ensure _ _ _ h

/-- The date map keeps its keys duplicate-free through a composer fold. -/
theorem akeys_nodup_foldAdd (env : SrvEnv) (wsId : String) (cs : List Composer) :
    ∀ m : List (String × DateEntry),
      (akeys m).Nodup → (akeys (cs.foldl (addComposer env wsId) m)).Nodup := by
  induction cs with
  | nil => intro m h; exact h
  | cons c rest ih =>
    intro m h
    simp only [List.foldl_cons]
    exact ih _ (akeys_nodup_addComposer env wsId m c h)

/-- The date map keeps its keys duplicate-free through `processWs`. -/
theorem akeys_nodup_processWs (env : SrvEnv) (m : List (String × DateEntry))
    (ws : Workspace) (h : (akeys m).Nodup) : (akeys (processWs env m ws)).Nodup := by
  unfold processWs
  rw [akeys_aupdate]
  exact akeys_nodup_foldAdd env ws.id ws.composers _ (nodup_akeys_ensure _ _ _ h)

/-- The date map keeps its keys duplicate-free through the workspace fold. -/
theorem akeys_nodup_foldWs (env : SrvEnv) (wss : List Workspace) :
    ∀ m : List (String × DateEntry),
      (akeys m).Nodup → (akeys (wss.foldl (processWs env) m)).Nodup := by
  induction wss with
  | nil => intro m h; exact h
  | cons ws rest ih =>
    intro m h
    simp only [List.foldl_cons]
    exact ih _ (akeys_nodup_processWs env m ws h)

/-- C3: no entry of the dates listing has composer count zero (a date with
prompts but no composers is excluded); the entries are sorted descending by
date string; and within an entry the prompt count is the tally of prompt
counts of the workspaces whose own modification date is that date, while the
composer count is the tally of composers whose own last-updated date is that
date — the two independent date axes of the aggregation. -/
theorem datesEndpoint_claims (env : SrvEnv) (now : Int) (fs : List FsEntry) :
    (∀ g ∈ datesEndpoint env now fs, 0 < g.composerCount) ∧
    (datesEndpoint env now fs).Pairwise (fun a b => dleStr b.date a.date = true) ∧
    (∀ g ∈ datesEndpoint env now fs,
      g.promptCount = pTally env g.date (listWorkspaces env 30 now fs) ∧
      g.composerCount = cTally env g.date (listWorkspaces env 30 now fs)) := by
  refine ⟨?_, ?_, ?_⟩
  · intro g hg
    simp only [datesEndpoint] at hg
    have hg1 := (mem_sortLe _ _ _).1 hg
    rcases List.mem_map.1 hg1 with ⟨p, hp, rfl⟩
    have h2 := (List.mem_filter.1 hp).2
    simpa using h2
  · simp only [datesEndpoint]
    exact pairwise_sortLe _ _
      (fun a _ b _ => dleStr_total b.date a.date)
      (fun a _ b _ c _ hab hbc => dleStr_trans c.date b.date a.date hbc hab)
  · intro g hg
    simp only [datesEndpoint] at hg
    have hg1 := (mem_sortLe _ _ _).1 hg
    rcases List.mem_map.1 hg1 with ⟨p, hp, rfl⟩
    have hpm := (List.mem_filter.1 hp).1
    have hnd : (akeys ((listWorkspaces env 30 now fs).foldl (processWs env) [])).Nodup :=
      akeys_nodup_foldWs env _ [] (by simp [akeys])
    have hlk : alookup p.1 ((listWorkspaces env 30 now fs).foldl (processWs env) [])
        = some p.2 := by
      apply alookup_of_mem _ _ _ hnd
      simpa using hpm
    constructor
    · have h1 := pcnt_foldWs env (listWorkspaces env 30 now fs) [] p.1
      rw [pcnt_eq_of_alookup _ _ _ hlk,
        show pcnt ([] : List (String × DateEntry)) p.1 = 0 from rfl, zero_add] at h1
      simpa using h1
    · have h1 := ccnt_foldWs env (listWorkspaces env 30 now fs) [] p.1
      rw [ccnt_eq_of_alookup _ _ _ hlk,
        show ccnt ([] : List (String × DateEntry)) p.1 = 0 from rfl, zero_add] at h1
      simpa using h1

/-- Witness for C3 at a concrete input. -/
theorem datesEndpoint_claims_witness :
    c3Group.promptCount = pTally exEnv0 c3Group.date (listWorkspaces exEnv0 30 c2Now c2Fs) ∧
    c3Group.composerCount = cTally exEnv0 c3Group.date (listWorkspaces exEnv0 30 c2Now c2Fs) :=
  (datesEndpoint_claims exEnv0 c2Now c2Fs).2.2 c3Group (by decide)

/-- With the `all` filter nothing is filtered: the kept conversations are
exactly the input. -/
theorem filteredConvs_all (env : FrontEnv) (convs : List FConv) (cd : Option String) :
    filteredConvs env convs DateFilter.all cd = convs := by
  unfold filteredConvs
  have hmap : convs.map (fun c =>
      { c with bubbles := filterBubblesByDate env c.bubbles DateFilter.all cd }) = convs := by
    have hfun : (fun c : FConv =>
        { c with bubbles := filterBubblesByDate env c.bubbles DateFilter.all cd })
        = fun c : FConv => c := rfl
    rw [hfun, List.map_id']
  rw [hmap]
  have hfil : (fun c : FConv =>
      decide (0 < c.bubbles.length) || decide (DateFilter.all = DateFilter.all))
      = fun _ : FConv => true := by
    funext c
    simp
  rw [hfil, List.filter_true]

/-- Grouping by workspace name only permutes the conversations: flattening
the groups gives back the input list up to permutation. -/
theorem groupConvs_flatten_perm (convs : List FConv) :
    ((groupConvs convs).flatMap Prod.snd).Perm convs := by
  have h : ∀ (l : List FConv) (m : List (String × List FConv)),
      ((l.foldl (fun m conv => apush conv.composer.workspaceName conv m) m).flatMap
        Prod.snd).Perm (m.flatMap Prod.snd ++ l) := by
    intro l
    induction l with
    | nil => intro m; simp
    | cons c rest ih =>
      intro m
      simp only [List.foldl_cons]
      refine (ih (apush c.composer.workspaceName c m)).trans ?_
      have h1 := flatMap_snd_apush c.composer.workspaceName c m
      refine (h1.append_right rest).trans ?_
      exact List.perm_middle.symm
  simpa using h convs []

/-- C9: with the `all` date filter, the generated summary is the header
followed by one block per workspace group; the multiset of emitted
conversation blocks is exactly one block per selected conversation (so each
selected composer contributes its name, mode label and message texts exactly
once); and the block of a conversation with messages consists of the name
heading once, the mode label line once, and each message's text once, in
order. -/
theorem summary_roundtrip (env : FrontEnv) (convs : List FConv) :
    (summaryPieces env convs DateFilter.all none
      = headerPieces env DateFilter.all none convs.length ++
        (groupConvs convs).flatMap (fun g =>
          ("## 📁 " ++ g.1 ++ "\n\n") :: g.2.flatMap (convPieces env))) ∧
    ((groupConvs convs).flatMap (fun g => g.2.map (convPieces env))).Perm
      (convs.map (convPieces env)) ∧
    (∀ item : FConv, item.bubbles ≠ [] →
      convPieces env item
        = ("### " ++ item.composer.composer.name ++ "\n")
          :: ("**Mode:** " ++ modeLabelOf item.composer.composer.mode ++
              " | **Last Updated:** " ++
              env.fmtDateTime item.composer.composer.lastUpdatedAt ++ "\n\n")
          :: (item.bubbles.flatMap (fun b =>
              [(if b.type = 1 then "👤 **User:**" else "🤖 **AI:**") ++ "\n\n",
               b.text ++ "\n\n"]) ++ ["---\n\n"])) := by
  refine ⟨?_, ?_, ?_⟩
  · simp only [summaryPieces, filteredConvs_all]
  · have h1 : (groupConvs convs).flatMap (fun g => g.2.map (convPieces env))
        = ((groupConvs convs).flatMap Prod.snd).map (convPieces env) :=
      (List.map_flatMap _ _ _).symm
    rw [h1]
    exact (groupConvs_flatten_perm convs).map _
  · intro item h
    simp only [convPieces]
    rw [if_pos (List.length_pos.mpr h)]

/-- Witness for C9 at a concrete conversation. -/
theorem summary_roundtrip_witness :
    convPieces exFrontEnv exConv
      = ("### " ++ exConv.composer.composer.name ++ "\n")
        :: ("**Mode:** " ++ modeLabelOf exConv.composer.composer.mode ++
            " | **Last Updated:** " ++
            exFrontEnv.fmtDateTime exConv.composer.composer.lastUpdatedAt ++ "\n\n")
        :: (exConv.bubbles.flatMap (fun b =>
            [(if b.type = 1 then "👤 **User:**" else "🤖 **AI:**") ++ "\n\n",
             b.text ++ "\n\n"]) ++ ["---\n\n"]) :=
  (summary_roundtrip exFrontEnv [exConv]).2.2 exConv (by decide)
